import Mathlib

/-!
Verification of the downhole-collection conversion pipeline of
`evo-data-converters` (packages `common` and `gef`).

The embedding mirrors the Python sources:
* `packages/common/src/evo/data_converters/common/objects/downhole_collection.py`
* `packages/common/src/evo/data_converters/common/objects/downhole_collection_to_go.py`
* `packages/gef/src/evo/data_converters/gef/importer/gef_to_downhole_collection.py`
* `packages/gef/src/evo/data_converters/gef/importer/parse_gef_files.py`

Row-oriented pandas data frames are modelled as a list of column names plus a
list of rows of rational values (float64 values are modelled as rationals,
which keeps every definition executable and every comparison decidable).
Fallible code paths (pandas `KeyError`, Python `raise ValueError`) are
modelled with `Option` / `Except`.
-/

deriving instance DecidableEq for Except

namespace EvoDataConverters

/-- A pandas `DataFrame` holding numeric data: named columns, row-major
values.  `rows[i][j]` is the value of column `columns[j]` in row `i`. -/
structure PandasDF where
  columns : List String
  rows : List (List Rat)
deriving DecidableEq, Repr

/-- `df.empty` in pandas: true when any axis has length 0. -/
def PandasDF.emptyDF (m : PandasDF) : Bool :=
  m.rows.isEmpty || m.columns.isEmpty

/-- Column selection `df["name"]`: `none` models the `KeyError` raised when
the column is absent; otherwise the values of that column, row by row. -/
def PandasDF.col (m : PandasDF) (name : String) : Option (List Rat) :=
  (m.columns.findIdx? (· == name)).map (fun i => m.rows.map (fun r => r.getD i 0))

/-- Row slice `df[k:]`: keeps every column, drops the first `k` rows. -/
def PandasDF.rowsFrom (m : PandasDF) (k : Nat) : PandasDF :=
  ⟨m.columns, m.rows.drop k⟩

/-- pandas dtype of one column, as far as the schema checks inspect it. -/
inductive PdDtype
  | int64
  | int32
  | float64
  | float32
  | string
  | object
  | boolean
deriving DecidableEq, Repr

/-- `pd.api.types.is_integer_dtype`. -/
def is_integer_dtype : PdDtype → Bool
  | .int64 => true
  | .int32 => true
  | _ => false

/-- `pd.api.types.is_float_dtype`. -/
def is_float_dtype : PdDtype → Bool
  | .float64 => true
  | .float32 => true
  | _ => false

/-- `pd.api.types.is_string_dtype` restricted to the dtypes above. -/
def is_string_dtype : PdDtype → Bool
  | .string => true
  | _ => false

/-- A data frame as seen by the dtype-schema validation: column names paired
with their declared dtypes. -/
structure TypedFrame where
  cols : List (String × PdDtype)
deriving DecidableEq, Repr

/-- `df[name].dtype` — the dtype of the first column carrying `name`. -/
def TypedFrame.dtypeOf (f : TypedFrame) (name : String) : Option PdDtype :=
  (f.cols.find? (fun p => p.1 == name)).map Prod.snd

/-- The `collars` attribute of a `DownholeCollection` may be any Python
object; `is_collars_valid` first checks it is a `pd.DataFrame`. -/
inductive CollarsValue
  | df (f : TypedFrame)
  | notDataFrame
deriving DecidableEq, Repr

/-- The `DownholeCollection` dataclass (the fields the queries read). -/
structure DownholeCollection where
  collars : CollarsValue
  measurements : PandasDF
  name : String
  epsg_code : Int
deriving DecidableEq, Repr

/-- The `collars_schema` dict inside `is_collars_valid`, in source order. -/
def collars_schema : List (String × String) :=
  [("hole_index", "int"), ("hole_id", "str"), ("x", "float"),
   ("y", "float"), ("z", "float"), ("final_depth", "float")]

/-- One column check of `DownholeCollection.is_schema_valid`: look up the
column's dtype and compare it against the expected type tag exactly as the
chain of `if`/`elif` tests in the source does. -/
def schema_col_ok (f : TypedFrame) (colName : String) (expected : String) : Bool :=
  match f.dtypeOf colName with
  | none => false
  | some d =>
    if expected = "int" then is_integer_dtype d
    else if expected = "float" then is_float_dtype d
    else if expected = "str" then is_string_dtype d || d == PdDtype.object
    else true

/-- `DownholeCollection.is_schema_valid` applied to a schema. -/
def is_schema_valid (f : TypedFrame) (schema : List (String × String)) : Bool :=
  schema.all (fun p => schema_col_ok f p.1 p.2)

/-- `DownholeCollection.is_collars_valid`: `collars` must be a `DataFrame`,
every schema column must be present, and `is_schema_valid` must pass. -/
def is_collars_valid (v : CollarsValue) : Bool :=
  match v with
  | .notDataFrame => false
  | .df f =>
    collars_schema.all (fun p => (f.cols.map Prod.fst).contains p.1)
      && is_schema_valid f collars_schema

/-- Python `str.lower()` for ASCII column names (`String.toLower` is not
kernel-reducible, so the lowering is done on the character list). -/
def pyLower (s : String) : String := String.mk (s.toList.map Char.toLower)

/-- `DownholeCollection.is_distance`: false on an empty table or fewer than
two columns, else the second column name, lower-cased, is
`penetrationlength` or `depth`. -/
def is_distance (dc : DownholeCollection) : Bool :=
  if dc.measurements.emptyDF || dc.measurements.columns.length < 2 then false
  else
    let second := pyLower (dc.measurements.columns.getD 1 "")
    second == "penetrationlength" || second == "depth"

/-- `DownholeCollection.is_interval`: false on an empty table or fewer than
three columns, else the second and third column names, lower-cased, are
`from` and `to`. -/
def is_interval (dc : DownholeCollection) : Bool :=
  if dc.measurements.emptyDF || dc.measurements.columns.length < 3 then false
  else
    let second := pyLower (dc.measurements.columns.getD 1 "")
    let third := pyLower (dc.measurements.columns.getD 2 "")
    second == "from" && third == "to"

/-- `DownholeCollection.measurement_type`. -/
def measurement_type (dc : DownholeCollection) : String :=
  if is_distance dc then "distance"
  else if is_interval dc then "interval"
  else "unknown"

/-! ## Columnar exporter (`downhole_collection_to_go.py`) -/

/-- Fuelled worker for `groupKeys`: the fuel only serves to make the
recursion structural, `groupKeysFuel fuel l` agrees with first-seen
deduplication whenever `l.length ≤ fuel`. -/
def groupKeysFuel : Nat → List Rat → List Rat
  | 0, _ => []
  | _ + 1, [] => []
  | fuel + 1, x :: xs => x :: groupKeysFuel fuel (xs.filter (fun y => y ≠ x))

/-- Keys of `measurements.groupby("hole_index", sort=False)`: each distinct
value once, in order of first appearance. -/
def groupKeys (xs : List Rat) : List Rat := groupKeysFuel xs.length xs

/-- `groupby("hole_index", sort=False).size()`: for each first-seen key, the
number of rows carrying that key anywhere in the column. -/
def groupCounts (xs : List Rat) : List Nat :=
  (groupKeys xs).map (fun k => xs.count k)

/-- `Series.shift(1, fill_value=0)`: values move down one position, the first
entry becomes 0 and the last is dropped. -/
def shiftFill : List Nat → List Nat
  | [] => []
  | c :: cs => 0 :: (c :: cs).dropLast

/-- `Series.cumsum()` with a running accumulator. -/
def cumsumFrom (acc : Nat) : List Nat → List Nat
  | [] => []
  | c :: cs => (acc + c) :: cumsumFrom (acc + c) cs

/-- `Series.cumsum()`. -/
def cumsum (l : List Nat) : List Nat := cumsumFrom 0 l

/-- `grouped["count"].shift(1, fill_value=0).cumsum()` — the offset column of
the hole-chunks table. -/
def offsetsOf (counts : List Nat) : List Nat := cumsum (shiftFill counts)

/-- The hypothesis of claim C1: rows carrying equal `hole_index` values form
contiguous blocks — between two equal values every value is that same
value. -/
def GroupedContiguously (xs : List Rat) : Prop :=
  ∀ i j k : Fin xs.length, i ≤ j → j ≤ k → xs.get i = xs.get k → xs.get j = xs.get i

instance (xs : List Rat) : Decidable (GroupedContiguously xs) :=
  inferInstanceAs (Decidable (∀ i j k : Fin xs.length,
    i ≤ j → j ≤ k → xs.get i = xs.get k → xs.get j = xs.get i))

/-- The hole-chunks table, column oriented exactly like the
`pa.Table.from_arrays` result of `holes_table`. -/
structure HoleChunksTable where
  hole_index : List Rat
  offset : List Nat
  count : List Nat
deriving DecidableEq, Repr

/-- `DownholeCollectionToGeoscienceObject.holes_table`: group the
measurements by `hole_index` without sorting, take group sizes as counts and
the shifted cumulative sums as offsets.  `none` models the `KeyError` raised
by `groupby("hole_index")` when the column is missing. -/
def holes_table (dc : DownholeCollection) : Option HoleChunksTable :=
  (dc.measurements.col "hole_index").map (fun xs =>
    ⟨groupKeys xs, offsetsOf (groupCounts xs), groupCounts xs⟩)

/-- `DownholeCollectionToGeoscienceObject.path_table`: one
`(distance, azimuth, dip)` row per measurement row, taking distances from the
column literally named `penetrationLength` and the constants
`AZIMUTH = 0.0`, `DIP = 90.0`.  `none` models the `KeyError` when that exact
column name is absent. -/
def path_table (dc : DownholeCollection) : Option (List (Rat × Rat × Rat)) :=
  (dc.measurements.col "penetrationLength").map (fun vs =>
    vs.map (fun v => (v, (0 : Rat), (90 : Rat))))

/-- `DownholeCollectionToGeoscienceObject.collection_distances_table`: the
`penetrationLength` column renamed to `values`; `none` models the `KeyError`
when the column is absent. -/
def collection_distances_table (dc : DownholeCollection) : Option (List Rat) :=
  dc.measurements.col "penetrationLength"

/-- `DownholeCollectionToGeoscienceObject.collection_attribute_tables`:
the source iterates `for attribute_name in self.dc.measurements[2:]`, i.e.
over the *columns* of the row-sliced frame `measurements[2:]` (a row slice
keeps every column), and for each name builds a one-column table holding the
full column of the original measurements frame. -/
def collection_attribute_tables (dc : DownholeCollection) :
    List (String × List Rat) :=
  (dc.measurements.rowsFrom 2).columns.map
    (fun c => (c, (dc.measurements.col c).getD []))

/-! ## GEF importer (`parse_gef_files.py`, `gef_to_downhole_collection.py`) -/

/-- The identifier attributes of a parsed `CPTData`: `none` stands for a
missing attribute or a Python-falsy `None` value, `some ""` for an empty
string (also falsy).  `alias` is called `aliasId` here because `alias` is a
reserved command name in Lean. -/
structure CptIdFields where
  bro_id : Option String
  aliasId : Option String
deriving DecidableEq, Repr

/-- Python truthiness of `hasattr(gef, a) and gef.a` for a string attribute:
the attribute must exist, not be `None`, and be non-empty. -/
def truthyStr : Option String → Bool
  | none => false
  | some s => !s.isEmpty

/-- `get_gef_cpt_id`: prefer a truthy `bro_id`, fall back to a truthy
`alias`, else raise `ValueError`. -/
def get_gef_cpt_id (g : CptIdFields) : Except String String :=
  if truthyStr g.bro_id then .ok (g.bro_id.getD "")
  else if truthyStr g.aliasId then .ok (g.aliasId.getD "")
  else .error "CPT missing required identifier 'bro_id' / 'alias'."

/-- A parsed per-hole record (`CPTData`), with just the fields the
conversion reads.  `srs_name`, `x`, `y` are optional because the Python
attributes may be missing or `None`. -/
structure GefCpt where
  srs_name : Option String
  x : Option Rat
  y : Option Rat
  vertical_offset : Option Rat
  final_depth : Rat
  data : PandasDF
deriving DecidableEq, Repr

/-- How EPSG extraction can fail. -/
inductive SrsError
  | absent
  | noColon
  | notAnInteger
deriving DecidableEq, Repr

/-- The conversion error taxonomy of the spec (§7). -/
inductive GefError
  | emptyBatch
  | invalidSpatialReference (holeId : String) (kind : SrsError)
  | inconsistentSpatialReference (holeId : String) (expected found : Int)
  | missingLocation (holeId : String)
  | missingPrimaryAxis (holeId : String)
  | emptyPrimaryAxis (holeId : String)
deriving DecidableEq, Repr

/-- Numeric value of a decimal digit character. -/
def digitVal (c : Char) : Option Nat :=
  if c.isDigit then some (c.toNat - 48) else none

/-- Parse a non-empty all-digit character list as a natural number. -/
def parseNatChars : List Char → Option Nat
  | [] => none
  | cs =>
    cs.foldl
      (fun acc c => match acc, digitVal c with
        | some n, some d => some (10 * n + d)
        | _, _ => none)
      (some 0)

/-- Python `int(token)` on a trimmed token: optional sign followed by at
least one digit. -/
def parseIntChars (cs : List Char) : Option Int :=
  match cs with
  | '-' :: rest => (parseNatChars rest).map (fun n => -(n : Int))
  | '+' :: rest => (parseNatChars rest).map (fun n => (n : Int))
  | _ => (parseNatChars cs).map (fun n => (n : Int))

/-- The characters of `s` after the last `':'` (all of `s` when there is no
colon). -/
def afterLastColon (s : String) : List Char :=
  (s.toList.reverse.takeWhile (fun c => c ≠ ':')).reverse

/-- Modelled from the spec: `_extract_epsg_code` (referenced by
`test_gef_to_downhole_collection.py` but absent from `src/`).  "Extract EPSG
numeric code from `srs_name` by taking the substring after the last `:`;
fails with `InvalidSpatialReference` if the field is absent, contains no
`:`, or the trailing token is not an integer." -/
def extract_epsg_code (cpt : GefCpt) (holeId : String) : Except GefError Int :=
  match cpt.srs_name with
  | none => .error (.invalidSpatialReference holeId .absent)
  | some s =>
    if s.toList.contains ':' then
      match parseIntChars (afterLastColon s) with
      | some n => .ok n
      | none => .error (.invalidSpatialReference holeId .notAnInteger)
    else .error (.invalidSpatialReference holeId .noColon)

/-- Modelled from the spec: the EPSG-consistency pass of
`create_from_parsed_gef_cpts` over the records after the first.  "Every
subsequent record's code must equal it exactly, else fails with
`InconsistentSpatialReference` naming the offending hole and both codes." -/
def check_epsg_rest (c0 : Int) : List (String × GefCpt) → Except GefError Int
  | [] => .ok c0
  | (hid, r) :: rest =>
    match extract_epsg_code r hid with
    | .error e => .error e
    | .ok c =>
      if c = c0 then check_epsg_rest c0 rest
      else .error (.inconsistentSpatialReference hid c0 c)

/-- Modelled from the spec: the EPSG phase of `create_from_parsed_gef_cpts`
(absent from `src/`; its tests remain).  "The first extracted EPSG code
becomes the collection's EPSG code"; an empty batch fails with
`EmptyBatch`. -/
def collection_epsg : List (String × GefCpt) → Except GefError Int
  | [] => .error .emptyBatch
  | (hid, r) :: rest =>
    match extract_epsg_code r hid with
    | .error e => .error e
    | .ok c0 => check_epsg_rest c0 rest

/-- Python `max` on two rationals (kept executable; Mathlib's lattice `max`
on `Rat` does not reduce in the kernel). -/
def ratMax (a b : Rat) : Rat := if a ≤ b then b else a

/-- Modelled from the spec: `_calculate_final_depth` (referenced by
`test_gef_to_downhole_collection.py` but absent from `src/`).  "Use the
record's supplied final depth if nonzero; otherwise require a primary-axis
column (`penetrationLength`) to exist and be non-empty, and use its maximum
value; fails with `MissingPrimaryAxis` or `EmptyPrimaryAxis`
respectively." -/
def calculate_final_depth (cpt : GefCpt) (holeId : String) : Except GefError Rat :=
  if cpt.final_depth ≠ 0 then .ok cpt.final_depth
  else
    match cpt.data.col "penetrationLength" with
    | none => .error (.missingPrimaryAxis holeId)
    | some [] => .error (.emptyPrimaryAxis holeId)
    | some (v :: vs) => .ok (vs.foldl ratMax v)

/-- One row of the Collars table. -/
structure Collar where
  hole_index : Int
  hole_id : String
  x : Rat
  y : Rat
  z : Rat
  final_depth : Rat
deriving DecidableEq, Repr

/-- Modelled from the spec: the per-hole collar row built by
`create_from_parsed_gef_cpts` (absent from `src/`).  Location `x`/`y` must be
present (`MissingLocation` otherwise), `z` is the vertical offset defaulted
to 0, and `final_depth` comes from `calculate_final_depth`. -/
def build_collar (idx : Int) (holeId : String) (cpt : GefCpt) :
    Except GefError Collar :=
  match cpt.x, cpt.y with
  | some x, some y =>
    match calculate_final_depth cpt holeId with
    | .error e => .error e
    | .ok fd => .ok ⟨idx, holeId, x, y, cpt.vertical_offset.getD 0, fd⟩
  | _, _ => .error (.missingLocation holeId)

/-- `distances_table` of the exporter restated over collar rows: the
`final`, `target` and `current` columns all replicate `final_depth`. -/
def distances_table (collars : List Collar) : List Rat × List Rat × List Rat :=
  (collars.map Collar.final_depth, collars.map Collar.final_depth,
   collars.map Collar.final_depth)

/-- Modelled from the spec: `get_collection_name_from_collars` (referenced by
`test_gef_to_downhole_collection.py` but absent from `src/`).  No collar
gives `""`, one collar gives its `hole_id`, several give
`first.hole_id ++ "..." ++ last.hole_id`. -/
def get_collection_name_from_collars (collars : List Collar) : String :=
  match collars with
  | [] => ""
  | [c] => c.hole_id
  | c1 :: c2 :: cs =>
    c1.hole_id ++ "..." ++ (List.getLast (c2 :: cs) (List.cons_ne_nil c2 cs)).hole_id

/-! ## Concrete instances (taken from the repository's unit-test fixtures) -/

/-- The measurements frame of the `sample_dhc` fixture in
`test_downhole_collection_to_go.py` (attribute values rounded to integers,
which the properties at stake never inspect). -/
def fixtureMeas : PandasDF :=
  ⟨["hole_index", "penetrationLength", "density", "porosity"],
   [[1, 10, 25, 15], [1, 20, 26, 18], [1, 30, 27, 20],
    [2, 15, 24, 12], [2, 25, 25, 16]]⟩

/-- The `sample_dhc` collection of `test_downhole_collection_to_go.py`. -/
def fixtureDC : DownholeCollection :=
  ⟨.notDataFrame, fixtureMeas, "Test Collection", 32633⟩

/-- A collection whose measurement rows are grouped contiguously with hole
2 first and hole 1 second (`hole_index = [2, 2, 1]`), so the first-seen key
order `[2, 1]` differs from the sorted key order `[1, 2]`. -/
def revDC : DownholeCollection :=
  ⟨.notDataFrame, ⟨["hole_index", "penetrationLength"], [[2, 0], [2, 1], [1, 0]]⟩,
   "Rev", 4326⟩

/-- A distance-layout collection whose primary axis is named `depth`
(the `distance_measurements` fixture of `test_downhole_collection.py`). -/
def depthDC : DownholeCollection :=
  ⟨.notDataFrame, ⟨["hole_index", "depth", "value"], [[1, 10, 2], [1, 20, 2], [2, 15, 2]]⟩,
   "Test", 4326⟩

/-- An interval-layout collection (the `interval_measurements` fixture of
`test_downhole_collection.py`). -/
def intervalDC : DownholeCollection :=
  ⟨.notDataFrame, ⟨["hole_index", "from", "to", "value"], [[1, 0, 10, 2], [1, 10, 20, 2], [2, 0, 15, 2]]⟩,
   "Test", 4326⟩

/-- A collection with an empty measurements frame. -/
def emptyMeasDC : DownholeCollection :=
  ⟨.notDataFrame, ⟨[], []⟩, "Test", 4326⟩

/-- A collars frame with the six required columns, correctly typed, plus one
extra column. -/
def extraCollarsFrame : TypedFrame :=
  ⟨[("hole_index", .int32), ("hole_id", .string), ("x", .float64),
    ("y", .float64), ("z", .float64), ("final_depth", .float64),
    ("extra", .float64)]⟩

/-- Collar rows for holes "A" and "B" of the spec's round-trip scenario. -/
def collarA : Collar := ⟨1, "A", 100, 500, 0, 3⟩

/-- Second collar of the round-trip scenario. -/
def collarB : Collar := ⟨2, "B", 200, 600, 0, 3⟩

/-- A parsed CPT record with EPSG code 28992. -/
def cptA : GefCpt :=
  ⟨some "EPSG:28992", some 100000, some 500000, some 1,
   10, ⟨["penetrationLength", "coneResistance"], [[0, 1], [1, 2], [2, 3], [3, 4]]⟩⟩

/-- A parsed CPT record with the same EPSG code as `cptA`. -/
def cptB : GefCpt :=
  ⟨some "EPSG:28992", some 100100, some 500100, some 2,
   12, ⟨["penetrationLength", "coneResistance"], [[0, 2], [1, 3], [3, 4]]⟩⟩

/-- A parsed CPT record with a different EPSG code (4326). -/
def cptC : GefCpt :=
  ⟨some "EPSG:4326", some 5, some 52, some 0,
   8, ⟨["penetrationLength", "coneResistance"], [[0, 1], [1, 2]]⟩⟩

/-- A record whose supplied final depth is 0, forcing the fallback to the
maximum of the `penetrationLength` column. -/
def cptZeroDepth : GefCpt :=
  ⟨some "EPSG:28992", some 100000, some 500000, some 1,
   0, ⟨["penetrationLength"], [[0], [2], [5], [8]]⟩⟩

/-! ## Spec-side predicates (for the refinement-style claims) -/

/-- The per-column dtype requirement stated by claim C6: `hole_index` an
integer type, `hole_id` a string type (pandas also accepts `object`), the
coordinates and depth float types. -/
def dtype_matches : String → PdDtype → Bool
  | "int", d => is_integer_dtype d
  | "float", d => is_float_dtype d
  | "str", d => is_string_dtype d || d == PdDtype.object
  | _, _ => true

/-- Spec-side reading of `is_collars_valid` (claim C6 as amended): the
collars value is a `DataFrame` in which every required column is present
with a matching dtype.  (Extra columns are permitted — this is exactly the
amendment forced by `extraCollarsFrame`.) -/
def collars_valid_spec : CollarsValue → Prop
  | .notDataFrame => False
  | .df f =>
    ∀ p ∈ collars_schema, ∃ d, f.dtypeOf p.1 = some d ∧ dtype_matches p.2 d = true

/-! ## Layout classification (claim C5) -/

theorem is_distance_eq_true_iff (dc : DownholeCollection) :
    is_distance dc = true ↔
      dc.measurements.emptyDF = false ∧ 2 ≤ dc.measurements.columns.length ∧
        (pyLower (dc.measurements.columns.getD 1 "") = "penetrationlength" ∨
         pyLower (dc.measurements.columns.getD 1 "") = "depth") := by
  unfold is_distance
  split
  · rename_i h
    simp only [Bool.or_eq_true, decide_eq_true_eq] at h
    constructor
    · intro hf
      exact absurd hf (by simp)
    · rintro ⟨h1, h2, -⟩
      rcases h with h | h
      · rw [h1] at h
        exact absurd h (by simp)
      · omega
  · rename_i h
    simp only [Bool.or_eq_true, decide_eq_true_eq, not_or, not_lt] at h
    simp only [Bool.or_eq_true, beq_iff_eq]
    constructor
    · rintro h'
      exact ⟨Bool.eq_false_iff.mpr h.1, h.2, h'⟩
    · rintro ⟨-, -, h'⟩
      exact h'

theorem is_interval_eq_true_iff (dc : DownholeCollection) :
    is_interval dc = true ↔
      dc.measurements.emptyDF = false ∧ 3 ≤ dc.measurements.columns.length ∧
        pyLower (dc.measurements.columns.getD 1 "") = "from" ∧
        pyLower (dc.measurements.columns.getD 2 "") = "to" := by
  unfold is_interval
  split
  · rename_i h
    simp only [Bool.or_eq_true, decide_eq_true_eq] at h
    constructor
    · intro hf
      exact absurd hf (by simp)
    · rintro ⟨h1, h2, -⟩
      rcases h with h | h
      · rw [h1] at h
        exact absurd h (by simp)
      · omega
  · rename_i h
    simp only [Bool.or_eq_true, decide_eq_true_eq, not_or, not_lt] at h
    simp only [Bool.and_eq_true, beq_iff_eq]
    constructor
    · rintro ⟨h1, h2⟩
      exact ⟨Bool.eq_false_iff.mpr h.1, h.2, h1, h2⟩
    · rintro ⟨-, -, h1, h2⟩
      exact ⟨h1, h2⟩

/-- C5: `is_distance` and `is_interval` are never both true; an empty (or
column-starved) measurements table makes both false, hence
`measurement_type` is `"unknown"`; a non-empty table with second column
`penetrationLength`/`depth` (case-insensitively) classifies as
`"distance"`, one with second and third columns `from`/`to` classifies as
`"interval"`, and everything else as `"unknown"`. -/
theorem measurement_type_c5 (dc : DownholeCollection) :
    (¬ (is_distance dc = true ∧ is_interval dc = true))
    ∧ (dc.measurements.emptyDF = true →
        is_distance dc = false ∧ is_interval dc = false ∧ measurement_type dc = "unknown")
    ∧ (dc.measurements.columns.length < 2 →
        is_distance dc = false ∧ is_interval dc = false ∧ measurement_type dc = "unknown")
    ∧ (dc.measurements.emptyDF = false → 2 ≤ dc.measurements.columns.length →
        (pyLower (dc.measurements.columns.getD 1 "") = "penetrationlength" ∨
         pyLower (dc.measurements.columns.getD 1 "") = "depth") →
        measurement_type dc = "distance")
    ∧ (dc.measurements.emptyDF = false → 3 ≤ dc.measurements.columns.length →
        pyLower (dc.measurements.columns.getD 1 "") = "from" →
        pyLower (dc.measurements.columns.getD 2 "") = "to" →
        measurement_type dc = "interval")
    ∧ (is_distance dc = false → is_interval dc = false →
        measurement_type dc = "unknown") := by
  have hboth : ¬ (is_distance dc = true ∧ is_interval dc = true) := by
    rintro ⟨hd, hi⟩
    rw [is_distance_eq_true_iff] at hd
    rw [is_interval_eq_true_iff] at hi
    rcases hd.2.2 with h | h <;> rw [hi.2.2.1] at h <;> simp at h
  refine ⟨hboth, ?_, ?_, ?_, ?_, ?_⟩
  · intro he
    have hd : is_distance dc = false := by
      rcases Bool.eq_false_or_eq_true (is_distance dc) with h | h
      · rw [is_distance_eq_true_iff] at h
        rw [he] at h
        simp at h
      · exact h
    have hi : is_interval dc = false := by
      rcases Bool.eq_false_or_eq_true (is_interval dc) with h | h
      · rw [is_interval_eq_true_iff] at h
        rw [he] at h
        simp at h
      · exact h
    exact ⟨hd, hi, by unfold measurement_type; rw [hd, hi]; simp⟩
  · intro hlen
    have hd : is_distance dc = false := by
      rcases Bool.eq_false_or_eq_true (is_distance dc) with h | h
      · rw [is_distance_eq_true_iff] at h
        omega
      · exact h
    have hi : is_interval dc = false := by
      rcases Bool.eq_false_or_eq_true (is_interval dc) with h | h
      · rw [is_interval_eq_true_iff] at h
        omega
      · exact h
    exact ⟨hd, hi, by unfold measurement_type; rw [hd, hi]; simp⟩
  · intro he hlen hsec
    have hd : is_distance dc = true := (is_distance_eq_true_iff dc).mpr ⟨he, hlen, hsec⟩
    unfold measurement_type
    rw [hd]
    simp
  · intro he hlen h2 h3
    have hi : is_interval dc = true := (is_interval_eq_true_iff dc).mpr ⟨he, hlen, h2, h3⟩
    have hd : is_distance dc = false := by
      rcases Bool.eq_false_or_eq_true (is_distance dc) with h | h
      · exact absurd ⟨h, hi⟩ hboth
      · exact h
    unfold measurement_type
    rw [hd, hi]
    simp
  · intro hd hi
    unfold measurement_type
    rw [hd, hi]
    simp

/-- Witness for C5 at the repository's own test fixtures: the `depth`
frame classifies as distance, the `from`/`to` frame as interval, and the
empty frame as unknown with both predicates false. -/
theorem measurement_type_c5_witness :
    measurement_type depthDC = "distance"
    ∧ measurement_type intervalDC = "interval"
    ∧ (is_distance emptyMeasDC = false ∧ is_interval emptyMeasDC = false ∧
        measurement_type emptyMeasDC = "unknown") :=
  ⟨(measurement_type_c5 depthDC).2.2.2.1 (by decide) (by decide) (by decide),
   (measurement_type_c5 intervalDC).2.2.2.2.1 (by decide) (by decide) (by decide) (by decide),
   (measurement_type_c5 emptyMeasDC).2.1 (by decide)⟩

/-! ## Attribute tables (claim C3) and the `penetrationLength` requirement
(claim C9) -/

/-- C3 (code bug): at the unit-test fixture (columns `hole_index`,
`penetrationLength`, `density`, `porosity`), `collection_attribute_tables`
produces four attribute tables — one per *every* column, including
`hole_index` and the primary axis — because `measurements[2:]` slices rows,
not columns.  The claim (and the repository's own
`test_collection_attribute_tables`) expects exactly the two trailing
columns. -/
theorem collection_attribute_tables_c3_bug :
    (collection_attribute_tables fixtureDC).map Prod.fst =
      ["hole_index", "penetrationLength", "density", "porosity"]
    ∧ (collection_attribute_tables fixtureDC).length ≠ 2
    ∧ "hole_index" ∈ (collection_attribute_tables fixtureDC).map Prod.fst
    ∧ "penetrationLength" ∈ (collection_attribute_tables fixtureDC).map Prod.fst := by
  decide

theorem col_eq_none_of_not_mem (m : PandasDF) (name : String)
    (h : ¬ name ∈ m.columns) : m.col name = none := by
  unfold PandasDF.col
  have hidx : m.columns.findIdx? (· == name) = none := by
    rw [List.findIdx?_eq_none_iff]
    intro x hx
    simp only [beq_eq_false_iff_ne, ne_eq]
    rintro rfl
    exact h hx
  rw [hidx]
  rfl

/-- C9: the exporter requires a column literally named `penetrationLength`:
whenever the measurements table lacks that exact name, both `path_table` and
`collection_distances_table` fail (the pandas `KeyError` branch) instead of
producing tables. -/
theorem path_table_requires_penetrationLength_c9 (dc : DownholeCollection)
    (h : ¬ "penetrationLength" ∈ dc.measurements.columns) :
    path_table dc = none ∧ collection_distances_table dc = none := by
  have hcol := col_eq_none_of_not_mem dc.measurements "penetrationLength" h
  constructor
  · unfold path_table
    rw [hcol]
    rfl
  · unfold collection_distances_table
    exact hcol

/-- Witness for C9 at layout-valid collections: the `depth`-axis frame is a
valid distance layout and the `from`/`to` frame a valid interval layout, yet
both make `path_table` and `collection_distances_table` fail — the export
error branch is reachable for layout-valid collections. -/
theorem path_table_requires_penetrationLength_c9_witness :
    (is_distance depthDC = true
      ∧ path_table depthDC = none ∧ collection_distances_table depthDC = none)
    ∧ (is_interval intervalDC = true
      ∧ path_table intervalDC = none ∧ collection_distances_table intervalDC = none) :=
  ⟨⟨by decide, path_table_requires_penetrationLength_c9 depthDC (by decide)⟩,
   ⟨by decide, path_table_requires_penetrationLength_c9 intervalDC (by decide)⟩⟩

/-! ## Hole identifier precedence (claim C10) -/

/-- C10: `get_gef_cpt_id` prefers a present non-empty `bro_id`, falls back
to a present non-empty `alias`, errors when neither is available, and in
particular a record carrying both identifiers is keyed by `bro_id`. -/
theorem get_gef_cpt_id_c10 (g : CptIdFields) :
    (∀ b, g.bro_id = some b → b ≠ "" → get_gef_cpt_id g = .ok b)
    ∧ ((g.bro_id = none ∨ g.bro_id = some "") →
        ∀ a, g.aliasId = some a → a ≠ "" → get_gef_cpt_id g = .ok a)
    ∧ ((g.bro_id = none ∨ g.bro_id = some "") →
        (g.aliasId = none ∨ g.aliasId = some "") →
        get_gef_cpt_id g = .error "CPT missing required identifier 'bro_id' / 'alias'.")
    ∧ (∀ b a, g.bro_id = some b → b ≠ "" → g.aliasId = some a →
        get_gef_cpt_id g = .ok b) := by
  have htruthy : ∀ o : Option String, truthyStr o = true ↔ ∃ s, o = some s ∧ s ≠ "" := by
    intro o
    cases o with
    | none => simp [truthyStr]
    | some s =>
      simp only [truthyStr, Bool.not_eq_true', Option.some.injEq]
      constructor
      · intro h
        refine ⟨s, rfl, fun hs => ?_⟩
        rw [Bool.eq_false_iff] at h
        exact h ((String.isEmpty_iff s).mpr hs)
      · rintro ⟨t, rfl, ht⟩
        rw [Bool.eq_false_iff]
        intro habs
        exact ht ((String.isEmpty_iff _).mp habs)
  have hfalsy : ∀ o : Option String, (o = none ∨ o = some "") → truthyStr o = false := by
    rintro o (rfl | rfl) <;> rfl
  refine ⟨?_, ?_, ?_, ?_⟩
  · intro b hb hne
    unfold get_gef_cpt_id
    rw [if_pos ((htruthy g.bro_id).mpr ⟨b, hb, hne⟩), hb]
    rfl
  · intro hb a ha hne
    unfold get_gef_cpt_id
    rw [if_neg (by rw [hfalsy g.bro_id hb]; exact Bool.false_ne_true),
      if_pos ((htruthy g.aliasId).mpr ⟨a, ha, hne⟩), ha]
    rfl
  · intro hb ha
    unfold get_gef_cpt_id
    rw [if_neg (by rw [hfalsy g.bro_id hb]; exact Bool.false_ne_true),
      if_neg (by rw [hfalsy g.aliasId ha]; exact Bool.false_ne_true)]
  · intro b a hb hne _
    unfold get_gef_cpt_id
    rw [if_pos ((htruthy g.bro_id).mpr ⟨b, hb, hne⟩), hb]
    rfl

/-- Witness for C10 at concrete records: both identifiers present resolves
to `bro_id`; only an alias resolves to the alias; neither errors. -/
theorem get_gef_cpt_id_c10_witness :
    get_gef_cpt_id ⟨some "BRO-1", some "ALIAS-1"⟩ = .ok "BRO-1"
    ∧ get_gef_cpt_id ⟨none, some "ALIAS-1"⟩ = .ok "ALIAS-1"
    ∧ get_gef_cpt_id ⟨some "", none⟩ =
        .error "CPT missing required identifier 'bro_id' / 'alias'." :=
  ⟨(get_gef_cpt_id_c10 ⟨some "BRO-1", some "ALIAS-1"⟩).2.2.2 "BRO-1" "ALIAS-1" rfl
      (by decide) rfl,
   (get_gef_cpt_id_c10 ⟨none, some "ALIAS-1"⟩).2.1 (Or.inl rfl) "ALIAS-1" rfl (by decide),
   (get_gef_cpt_id_c10 ⟨some "", none⟩).2.2.1 (Or.inr rfl) (Or.inl rfl)⟩

/-! ## Collection naming (claim C4) -/

/-- C4 (spec-modelled): the collection name is derived from the hole ids —
a single collar gives exactly its `hole_id` (no range syntax) and a
multi-collar batch gives `first.hole_id ++ "..." ++ last.hole_id`; in the
round-trip scenario, holes "A" and "B" give `"A...B"`. -/
theorem get_collection_name_from_collars_c4 :
    (∀ c : Collar, get_collection_name_from_collars [c] = c.hole_id)
    ∧ (∀ (c1 c2 : Collar) (cs : List Collar),
        get_collection_name_from_collars (c1 :: c2 :: cs) =
          c1.hole_id ++ "..." ++ (List.getLast (c2 :: cs) (List.cons_ne_nil c2 cs)).hole_id)
    ∧ get_collection_name_from_collars [collarA, collarB] = "A...B"
    ∧ get_collection_name_from_collars [] = "" :=
  ⟨fun _ => rfl, fun _ _ _ => rfl, by decide, rfl⟩

/-! ## Collars schema validation (claim C6) -/

theorem dtype_matches_eq_ite (e : String) (d : PdDtype) :
    dtype_matches e d =
      (if e = "int" then is_integer_dtype d
       else if e = "float" then is_float_dtype d
       else if e = "str" then is_string_dtype d || d == PdDtype.object
       else true) := by
  by_cases h1 : e = "int"
  · subst h1; rfl
  · by_cases h2 : e = "float"
    · subst h2; rfl
    · by_cases h3 : e = "str"
      · subst h3; rfl
      · rw [if_neg h1, if_neg h2, if_neg h3]
        unfold dtype_matches
        split
        · exact absurd rfl h1
        · exact absurd rfl h2
        · exact absurd rfl h3
        · rfl

theorem schema_col_ok_iff (f : TypedFrame) (c e : String) :
    schema_col_ok f c e = true ↔
      ∃ d, f.dtypeOf c = some d ∧ dtype_matches e d = true := by
  cases h : f.dtypeOf c with
  | none =>
    unfold schema_col_ok
    rw [h]
    simp
  | some d =>
    have hred : schema_col_ok f c e = dtype_matches e d := by
      unfold schema_col_ok
      rw [h, dtype_matches_eq_ite]
    rw [hred]
    constructor
    · intro hok
      exact ⟨d, rfl, hok⟩
    · rintro ⟨d', hd', hok⟩
      cases hd'
      exact hok

theorem dtypeOf_isSome_iff (f : TypedFrame) (a : String) :
    (f.dtypeOf a).isSome = true ↔ a ∈ f.cols.map Prod.fst := by
  unfold TypedFrame.dtypeOf
  rw [Option.isSome_map']
  rw [List.find?_isSome]
  simp only [List.mem_map, beq_iff_eq]

/-- C6 (counterexample to the claim as stated): a collars frame carrying the
six required columns with correct dtypes *plus* an extra column still
validates — `is_collars_valid` checks presence of the required columns, not
that the column set is exactly the required set. -/
theorem is_collars_valid_c6_counterexample :
    is_collars_valid (.df extraCollarsFrame) = true
    ∧ "extra" ∈ extraCollarsFrame.cols.map Prod.fst
    ∧ ¬ "extra" ∈ collars_schema.map Prod.fst
    ∧ extraCollarsFrame.cols.map Prod.fst ≠ collars_schema.map Prod.fst := by
  decide

/-- C6 (amended): `is_collars_valid` returns true iff the collars value is a
`DataFrame` in which each of `hole_index` (integer), `hole_id` (string or
object), `x`, `y`, `z`, `final_depth` (float) is present with a matching
dtype; extra columns are permitted, any other object type or mismatch gives
false. -/
theorem is_collars_valid_c6_amended (v : CollarsValue) :
    is_collars_valid v = true ↔ collars_valid_spec v := by
  cases v with
  | notDataFrame =>
    simp [is_collars_valid, collars_valid_spec]
  | df f =>
    unfold is_collars_valid collars_valid_spec is_schema_valid
    rw [Bool.and_eq_true, List.all_eq_true, List.all_eq_true]
    constructor
    · rintro ⟨-, hok⟩ p hp
      exact (schema_col_ok_iff f p.1 p.2).mp (hok p hp)
    · intro h
      refine ⟨?_, fun p hp => (schema_col_ok_iff f p.1 p.2).mpr (h p hp)⟩
      intro p hp
      obtain ⟨d, hd, -⟩ := h p hp
      have hsome : (f.dtypeOf p.1).isSome = true := by rw [hd]; rfl
      have hmem := (dtypeOf_isSome_iff f p.1).mp hsome
      exact List.elem_iff.mpr hmem

/-- Witness for the amended C6 at the counterexample frame: the spec-side
predicate holds of the frame with an extra column. -/
theorem is_collars_valid_c6_amended_witness :
    collars_valid_spec (CollarsValue.df extraCollarsFrame) :=
  (is_collars_valid_c6_amended (CollarsValue.df extraCollarsFrame)).mp (by decide)

/-! ## Hole chunks (claim C1) -/

theorem groupKeysFuel_adequate :
    ∀ (fuel : Nat) (l : List Rat), l.length ≤ fuel → groupKeysFuel fuel l = groupKeys l := by
  intro fuel
  induction fuel using Nat.strong_induction_on with
  | _ fuel ih =>
    intro l hl
    cases l with
    | nil => cases fuel <;> rfl
    | cons x xs =>
      cases fuel with
      | zero => simp at hl
      | succ f =>
        have h1 : groupKeysFuel (f + 1) (x :: xs) =
            x :: groupKeysFuel f (xs.filter (fun y => y ≠ x)) := rfl
        have h2 : groupKeys (x :: xs) =
            x :: groupKeysFuel xs.length (xs.filter (fun y => y ≠ x)) := rfl
        have hxs : xs.length ≤ f := Nat.le_of_succ_le_succ hl
        have hfil : (xs.filter (fun y => y ≠ x)).length ≤ xs.length :=
          List.length_filter_le _ _
        rw [h1, h2]
        congr 1
        rw [ih f (Nat.lt_succ_self f) _ (le_trans hfil hxs),
          ih xs.length (Nat.lt_succ_of_le hxs) _ hfil]

theorem groupKeys_cons (x : Rat) (xs : List Rat) :
    groupKeys (x :: xs) = x :: groupKeys (xs.filter (fun y => y ≠ x)) := by
  have h : groupKeys (x :: xs) =
      x :: groupKeysFuel xs.length (xs.filter (fun y => y ≠ x)) := rfl
  rw [h, groupKeysFuel_adequate xs.length _ (List.length_filter_le _ _)]

theorem mem_groupKeys_aux :
    ∀ (n : Nat) (xs : List Rat), xs.length ≤ n →
      ∀ k : Rat, (k ∈ groupKeys xs ↔ k ∈ xs) := by
  intro n
  induction n with
  | zero =>
    intro xs hxs k
    rw [List.eq_nil_of_length_eq_zero (Nat.le_zero.mp hxs)]
    simp [groupKeys, groupKeysFuel]
  | succ n ih =>
    intro xs hxs k
    cases xs with
    | nil => simp [groupKeys, groupKeysFuel]
    | cons x t =>
      rw [groupKeys_cons]
      have hle : (t.filter (fun y => y ≠ x)).length ≤ n :=
        le_trans (List.length_filter_le _ _) (Nat.le_of_succ_le_succ hxs)
      have IH := ih _ hle k
      simp only [List.mem_cons]
      constructor
      · rintro (rfl | h)
        · exact Or.inl rfl
        · exact Or.inr (List.mem_filter.mp (IH.mp h)).1
      · rintro (rfl | h)
        · exact Or.inl rfl
        · by_cases hkx : k = x
          · exact Or.inl hkx
          · exact Or.inr (IH.mpr (List.mem_filter.mpr ⟨h, by simp [hkx]⟩))

theorem mem_groupKeys (xs : List Rat) (k : Rat) : k ∈ groupKeys xs ↔ k ∈ xs :=
  mem_groupKeys_aux xs.length xs le_rfl k

theorem groupKeys_nodup_aux :
    ∀ (n : Nat) (xs : List Rat), xs.length ≤ n → (groupKeys xs).Nodup := by
  intro n
  induction n with
  | zero =>
    intro xs hxs
    rw [List.eq_nil_of_length_eq_zero (Nat.le_zero.mp hxs)]
    exact List.nodup_nil
  | succ n ih =>
    intro xs hxs
    cases xs with
    | nil => exact List.nodup_nil
    | cons x t =>
      rw [groupKeys_cons]
      have hle : (t.filter (fun y => y ≠ x)).length ≤ n :=
        le_trans (List.length_filter_le _ _) (Nat.le_of_succ_le_succ hxs)
      refine List.nodup_cons.mpr ⟨?_, ih _ hle⟩
      intro hmem
      have hx := (List.mem_filter.mp ((mem_groupKeys _ x).mp hmem)).2
      simp at hx

theorem groupKeys_nodup (xs : List Rat) : (groupKeys xs).Nodup :=
  groupKeys_nodup_aux xs.length xs le_rfl

theorem length_filter_ne_add_count (x : Rat) :
    ∀ t : List Rat, (t.filter (fun y => y ≠ x)).length + t.count x = t.length := by
  intro t
  induction t with
  | nil => rfl
  | cons y t ih =>
    by_cases hyx : y = x
    · subst hyx
      rw [List.filter_cons_of_neg (by simp), List.count_cons_self, List.length_cons]
      omega
    · rw [List.filter_cons_of_pos (by simp [hyx]),
        List.count_cons_of_ne (fun h => hyx h.symm), List.length_cons, List.length_cons]
      omega

theorem sum_groupCounts_aux :
    ∀ (n : Nat) (xs : List Rat), xs.length ≤ n → (groupCounts xs).sum = xs.length := by
  intro n
  induction n with
  | zero =>
    intro xs hxs
    rw [List.eq_nil_of_length_eq_zero (Nat.le_zero.mp hxs)]
    rfl
  | succ n ih =>
    intro xs hxs
    cases xs with
    | nil => rfl
    | cons x t =>
      have hle : (t.filter (fun y => y ≠ x)).length ≤ n :=
        le_trans (List.length_filter_le _ _) (Nat.le_of_succ_le_succ hxs)
      unfold groupCounts
      rw [groupKeys_cons, List.map_cons, List.sum_cons]
      have hmap : (groupKeys (t.filter (fun y => y ≠ x))).map (fun k => (x :: t).count k) =
          (groupKeys (t.filter (fun y => y ≠ x))).map
            (fun k => (t.filter (fun y => y ≠ x)).count k) := by
        apply List.map_congr_left
        intro k hk
        have hk' := (mem_groupKeys _ k).mp hk
        have hkx : ¬ k = x := by
          have := (List.mem_filter.mp hk').2
          simpa using this
        have hbx : (x == k) = false := by
          rw [beq_eq_false_iff_ne]
          exact fun h => hkx h.symm
        rw [List.count_cons, hbx, List.count_filter (by simp [hkx])]
        simp
      rw [hmap]
      have IH : ((groupKeys (t.filter (fun y => y ≠ x))).map
          (fun k => (t.filter (fun y => y ≠ x)).count k)).sum =
          (t.filter (fun y => y ≠ x)).length := ih _ hle
      rw [IH, List.count_cons_self]
      have hsplit := length_filter_ne_add_count x t
      simp only [List.length_cons]
      omega

theorem sum_groupCounts (xs : List Rat) : (groupCounts xs).sum = xs.length :=
  sum_groupCounts_aux xs.length xs le_rfl

theorem cumsumFrom_get? :
    ∀ (l : List Nat) (acc i : Nat), i < l.length →
      (cumsumFrom acc l).get? i = some (acc + (l.take (i + 1)).sum) := by
  intro l
  induction l with
  | nil =>
    intro acc i h
    simp at h
  | cons c cs ih =>
    intro acc i h
    cases i with
    | zero => simp [cumsumFrom]
    | succ i =>
      have h' : i < cs.length := Nat.lt_of_succ_lt_succ h
      show (cumsumFrom (acc + c) cs).get? i = _
      rw [ih (acc + c) i h']
      rw [List.take_succ_cons, List.sum_cons]
      congr 1
      omega

theorem dropLast_take :
    ∀ (l : List Nat) (i : Nat), i < l.length → l.dropLast.take i = l.take i := by
  intro l
  induction l with
  | nil =>
    intro i h
    simp at h
  | cons a t ih =>
    intro i h
    cases t with
    | nil =>
      cases i with
      | zero => rfl
      | succ i => simp at h
    | cons b t' =>
      cases i with
      | zero => rfl
      | succ i =>
        have hd : (a :: b :: t').dropLast = a :: (b :: t').dropLast := rfl
        rw [hd, List.take_succ_cons, List.take_succ_cons,
          ih i (Nat.lt_of_succ_lt_succ h)]

theorem cumsumFrom_length : ∀ (l : List Nat) (acc : Nat), (cumsumFrom acc l).length = l.length := by
  intro l
  induction l with
  | nil => intro acc; rfl
  | cons c cs ih =>
    intro acc
    show (cumsumFrom (acc + c) cs).length + 1 = cs.length + 1
    rw [ih]

theorem offsetsOf_length (cs : List Nat) : (offsetsOf cs).length = cs.length := by
  cases cs with
  | nil => rfl
  | cons c t =>
    unfold offsetsOf shiftFill cumsum
    rw [cumsumFrom_length]
    simp [List.length_dropLast]

theorem offsetsOf_get? (cs : List Nat) (i : Nat) (h : i < cs.length) :
    (offsetsOf cs).get? i = some ((cs.take i).sum) := by
  cases cs with
  | nil => simp at h
  | cons c t =>
    unfold offsetsOf shiftFill cumsum
    have hlen : i < (0 :: (c :: t).dropLast).length := by
      simp only [List.length_cons, List.length_dropLast]
      simpa using h
    rw [cumsumFrom_get? _ 0 i hlen]
    rw [List.take_succ_cons, List.sum_cons, dropLast_take (c :: t) i h]
    simp

theorem indexOf_filter_mono (x : Rat) :
    ∀ (t : List Rat) (a b : Rat), ¬ a = x → ¬ b = x →
      (t.filter (fun y => y ≠ x)).indexOf a < (t.filter (fun y => y ≠ x)).indexOf b →
      t.indexOf a < t.indexOf b := by
  intro t
  induction t with
  | nil =>
    intro a b _ _ h
    simp at h
  | cons y t' ih =>
    intro a b ha hb h
    by_cases hyx : y = x
    · subst hyx
      rw [List.filter_cons_of_neg (by simp)] at h
      have hres := ih a b ha hb h
      rw [List.indexOf_cons_ne t' (fun hh => ha hh.symm),
        List.indexOf_cons_ne t' (fun hh => hb hh.symm)]
      omega
    · rw [List.filter_cons_of_pos (by simp [hyx])] at h
      by_cases hay : a = y
      · subst hay
        have hba : ¬ b = a := by
          rintro rfl
          rw [List.indexOf_cons_self] at h
          omega
        rw [List.indexOf_cons_self, List.indexOf_cons_ne t' (fun hh => hba hh.symm)]
        omega
      · by_cases hby : b = y
        · subst hby
          rw [List.indexOf_cons_self] at h
          omega
        · rw [List.indexOf_cons_ne (t'.filter (fun y => y ≠ x)) (fun hh => hay hh.symm),
            List.indexOf_cons_ne (t'.filter (fun y => y ≠ x)) (fun hh => hby hh.symm)] at h
          have hres := ih a b ha hb (by omega)
          rw [List.indexOf_cons_ne t' (fun hh => hay hh.symm),
            List.indexOf_cons_ne t' (fun hh => hby hh.symm)]
          omega

theorem groupKeys_pairwise_aux :
    ∀ (n : Nat) (xs : List Rat), xs.length ≤ n →
      (groupKeys xs).Pairwise (fun a b => xs.indexOf a < xs.indexOf b) := by
  intro n
  induction n with
  | zero =>
    intro xs hxs
    rw [List.eq_nil_of_length_eq_zero (Nat.le_zero.mp hxs)]
    exact List.Pairwise.nil
  | succ n ih =>
    intro xs hxs
    cases xs with
    | nil => exact List.Pairwise.nil
    | cons x t =>
      rw [groupKeys_cons]
      have hle : (t.filter (fun y => y ≠ x)).length ≤ n :=
        le_trans (List.length_filter_le _ _) (Nat.le_of_succ_le_succ hxs)
      refine List.pairwise_cons.mpr ⟨?_, ?_⟩
      · intro b hb
        have hbx : ¬ b = x := by
          simpa using (List.mem_filter.mp ((mem_groupKeys _ b).mp hb)).2
        rw [List.indexOf_cons_self, List.indexOf_cons_ne t (fun hh => hbx hh.symm)]
        omega
      · refine (ih _ hle).imp_of_mem ?_
        intro a b hma hmb hab
        have hax : ¬ a = x := by
          simpa using (List.mem_filter.mp ((mem_groupKeys _ a).mp hma)).2
        have hbx : ¬ b = x := by
          simpa using (List.mem_filter.mp ((mem_groupKeys _ b).mp hmb)).2
        have hres := indexOf_filter_mono x t a b hax hbx hab
        rw [List.indexOf_cons_ne t (fun hh => hax hh.symm),
          List.indexOf_cons_ne t (fun hh => hbx hh.symm)]
        omega

theorem groupKeys_pairwise (xs : List Rat) :
    (groupKeys xs).Pairwise (fun a b => xs.indexOf a < xs.indexOf b) :=
  groupKeys_pairwise_aux xs.length xs le_rfl

/-- C1: for a measurements table grouped contiguously by `hole_index`, the
hole-chunks table has `offset[0] = 0`, `offset[i] = sum(count[0..i-1])`,
`sum(count)` equal to the total number of measurement rows, `count[i]` equal
to the number of rows whose `hole_index` equals `hole_index[i]`, and exactly
one chunk per distinct hole, in first-seen order: the chunk keys are
strictly sorted by the position of their first occurrence in the column
(which, with `Nodup` and the membership clause, determines the key sequence
uniquely as the first-seen deduplication of the column). -/
theorem holes_table_c1 (dc : DownholeCollection) (xs : List Rat) (ht : HoleChunksTable)
    (hcol : dc.measurements.col "hole_index" = some xs)
    (hcontig : GroupedContiguously xs)
    (hht : holes_table dc = some ht) :
    (0 < ht.offset.length → ht.offset.get? 0 = some 0)
    ∧ (∀ i, i < ht.count.length → ht.offset.get? i = some ((ht.count.take i).sum))
    ∧ ht.count.sum = xs.length
    ∧ (∀ i, i < ht.hole_index.length →
        ht.count.get? i = (ht.hole_index.get? i).map (fun k => xs.count k))
    ∧ ht.hole_index.Nodup
    ∧ (∀ k, k ∈ ht.hole_index ↔ k ∈ xs)
    ∧ ht.hole_index.Pairwise (fun a b => xs.indexOf a < xs.indexOf b) := by
  unfold holes_table at hht
  rw [hcol] at hht
  simp only [Option.map_some', Option.some.injEq] at hht
  subst hht
  refine ⟨?_, ?_, sum_groupCounts xs, ?_, groupKeys_nodup xs, fun k => mem_groupKeys xs k,
    groupKeys_pairwise xs⟩
  · intro hpos
    rw [offsetsOf_length] at hpos
    have h0 := offsetsOf_get? (groupCounts xs) 0 hpos
    rw [h0]
    rfl
  · intro i hi
    exact offsetsOf_get? (groupCounts xs) i hi
  · intro i hi
    unfold groupCounts
    rw [List.get?_map]

/-- Witness for C1 at a fixture whose first-seen order differs from the
sorted order: `hole_index = [2, 2, 1]` yields chunks
`[(2, 0, 2), (1, 2, 1)]` with keys `[2, 1]` (a sorted grouping would give
`[1, 2]`, violating the first-occurrence ordering clause since hole 1 first
appears at position 2 and hole 2 at position 0). -/
theorem holes_table_c1_witness :
    holes_table revDC = some ⟨[2, 1], [0, 2], [2, 1]⟩
    ∧ ([(2 : Rat), 1]).Pairwise
        (fun a b => ([(2 : Rat), 2, 1]).indexOf a < ([(2 : Rat), 2, 1]).indexOf b)
    ∧ ([(2 : Rat), 2, 1]).indexOf 2 = 0 ∧ ([(2 : Rat), 2, 1]).indexOf 1 = 2
    ∧ ([2, 1] : List Nat).sum = ([(2 : Rat), 2, 1]).length
    ∧ ([(2 : Rat), 1]).Nodup := by
  have h := holes_table_c1 revDC [2, 2, 1] ⟨[2, 1], [0, 2], [2, 1]⟩
    (by decide) (by decide) (by decide)
  exact ⟨by decide, h.2.2.2.2.2.2, by decide, by decide, h.2.2.1, h.2.2.2.2.1⟩

/-! ## Final-depth fallback (claim C7) -/

theorem le_ratMax_left (a b : Rat) : a ≤ ratMax a b := by
  unfold ratMax
  split
  · assumption
  · exact le_refl a

theorem le_ratMax_right (a b : Rat) : b ≤ ratMax a b := by
  unfold ratMax
  split
  · exact le_refl b
  · rename_i h
    exact le_of_not_le h

theorem ratMax_choice (a b : Rat) : ratMax a b = a ∨ ratMax a b = b := by
  unfold ratMax
  split
  · exact Or.inr rfl
  · exact Or.inl rfl

theorem foldl_ratMax_mem (vs : List Rat) : ∀ v : Rat, vs.foldl ratMax v ∈ v :: vs := by
  induction vs with
  | nil =>
    intro v
    exact List.mem_cons_self v []
  | cons c cs ih =>
    intro v
    rw [List.foldl_cons]
    rcases List.mem_cons.mp (ih (ratMax v c)) with h | h
    · rcases ratMax_choice v c with hm | hm
      · rw [h, hm]
        exact List.mem_cons_self _ _
      · rw [h, hm]
        exact List.mem_cons_of_mem _ (List.mem_cons_self _ _)
    · exact List.mem_cons_of_mem _ (List.mem_cons_of_mem _ h)

theorem foldl_ratMax_le (vs : List Rat) :
    ∀ v : Rat, ∀ w ∈ v :: vs, w ≤ vs.foldl ratMax v := by
  induction vs with
  | nil =>
    intro v w hw
    rcases List.mem_cons.mp hw with rfl | h
    · exact le_refl w
    · exact absurd h (List.not_mem_nil w)
  | cons c cs ih =>
    intro v w hw
    rw [List.foldl_cons]
    rcases List.mem_cons.mp hw with rfl | hw'
    · exact le_trans (le_ratMax_left w c) (ih (ratMax w c) _ (List.mem_cons_self _ _))
    · rcases List.mem_cons.mp hw' with rfl | hw''
      · exact le_trans (le_ratMax_right v w) (ih (ratMax v w) _ (List.mem_cons_self _ _))
      · exact ih (ratMax v c) w (List.mem_cons_of_mem _ hw'')

/-- C7 (spec-modelled): a nonzero supplied final depth is used unchanged; a
zero final depth falls back to the maximum of a non-empty
`penetrationLength` column (the result is a member of the column and an
upper bound of it); a missing or empty column makes the fallback fail; a
successfully built collar carries exactly the computed final depth; and the
exported distances table replicates the collar final depths in all three of
its columns. -/
theorem calculate_final_depth_c7 (cpt : GefCpt) (hid : String) :
    (cpt.final_depth ≠ 0 → calculate_final_depth cpt hid = .ok cpt.final_depth)
    ∧ (∀ v vs, cpt.final_depth = 0 →
        cpt.data.col "penetrationLength" = some (v :: vs) →
        calculate_final_depth cpt hid = .ok (vs.foldl ratMax v)
          ∧ vs.foldl ratMax v ∈ v :: vs
          ∧ ∀ w ∈ v :: vs, w ≤ vs.foldl ratMax v)
    ∧ (cpt.final_depth = 0 → cpt.data.col "penetrationLength" = none →
        calculate_final_depth cpt hid = .error (.missingPrimaryAxis hid))
    ∧ (cpt.final_depth = 0 → cpt.data.col "penetrationLength" = some [] →
        calculate_final_depth cpt hid = .error (.emptyPrimaryAxis hid))
    ∧ (∀ idx collar, build_collar idx hid cpt = .ok collar →
        calculate_final_depth cpt hid = .ok collar.final_depth)
    ∧ (∀ collars : List Collar,
        distances_table collars = (collars.map Collar.final_depth,
          collars.map Collar.final_depth, collars.map Collar.final_depth)) := by
  refine ⟨?_, ?_, ?_, ?_, ?_, fun _ => rfl⟩
  · intro h
    unfold calculate_final_depth
    rw [if_pos h]
  · intro v vs h0 hcol
    unfold calculate_final_depth
    rw [if_neg (by simp [h0]), hcol]
    exact ⟨rfl, foldl_ratMax_mem vs v, foldl_ratMax_le vs v⟩
  · intro h0 hcol
    unfold calculate_final_depth
    rw [if_neg (by simp [h0]), hcol]
  · intro h0 hcol
    unfold calculate_final_depth
    rw [if_neg (by simp [h0]), hcol]
  · intro idx collar hb
    unfold build_collar at hb
    cases hx : cpt.x with
    | none => rw [hx] at hb; simp at hb
    | some x =>
      cases hy : cpt.y with
      | none => rw [hx, hy] at hb; simp at hb
      | some y =>
        rw [hx, hy] at hb
        cases hfd : calculate_final_depth cpt hid with
        | error e => rw [hfd] at hb; simp at hb
        | ok fd =>
          rw [hfd] at hb
          simp only [Except.ok.injEq] at hb
          rw [← hb]

/-- Witness for C7: the spec's fallback scenario with final depth supplied
as 0 and `penetrationLength = [0, 2, 5, 8]` yields the column maximum 8,
while a nonzero final depth (`cptA`, 10) is used unchanged. -/
theorem calculate_final_depth_c7_witness :
    calculate_final_depth cptZeroDepth "CPT-001" = .ok 8
    ∧ calculate_final_depth cptA "CPT-001" = .ok 10 := by
  have h := (calculate_final_depth_c7 cptZeroDepth "CPT-001").2.1 0 [2, 5, 8]
    (by decide) (by decide)
  have h2 := (calculate_final_depth_c7 cptA "CPT-001").1 (by decide)
  refine ⟨?_, h2⟩
  rw [h.1]
  decide

/-! ## EPSG extraction (claim C8) -/

theorem takeWhile_append_of_all {p : Char → Bool} :
    ∀ (l : List Char) (x : Char) (r : List Char), (∀ a ∈ l, p a = true) → p x = false →
      (l ++ x :: r).takeWhile p = l := by
  intro l
  induction l with
  | nil =>
    intro x r _ hx
    rw [List.nil_append, List.takeWhile_cons, hx]
    rfl
  | cons a t ih =>
    intro x r hall hx
    rw [List.cons_append, List.takeWhile_cons, hall a (List.mem_cons_self a t)]
    rw [ih x r (fun b hb => hall b (List.mem_cons_of_mem a hb)) hx]
    simp

theorem afterLastColon_append (pre post : String)
    (hpost : post.toList.contains ':' = false) :
    afterLastColon (pre ++ ":" ++ post) = post.toList := by
  unfold afterLastColon
  have htl : (pre ++ ":" ++ post).toList = pre.toList ++ ':' :: post.toList := by
    show (pre ++ ":" ++ post).data = pre.data ++ ':' :: post.data
    have hc : (":" : String).data = [':'] := by decide
    rw [String.data_append, String.data_append, List.append_assoc, hc,
      List.singleton_append]
  have hnotmem : ¬ ':' ∈ post.toList := by
    intro hmem
    have hc : post.toList.contains ':' = true := List.elem_iff.mpr hmem
    rw [hpost] at hc
    exact Bool.false_ne_true hc
  have hall : ∀ a ∈ post.toList.reverse, (decide (a ≠ ':')) = true := by
    intro a ha
    simp only [decide_eq_true_eq, ne_eq]
    rintro rfl
    exact hnotmem (List.mem_reverse.mp ha)
  rw [htl, List.reverse_append, List.reverse_cons]
  have hassoc : post.toList.reverse ++ [':'] ++ pre.toList.reverse =
      post.toList.reverse ++ ':' :: pre.toList.reverse := by
    rw [List.append_assoc]
    rfl
  rw [hassoc, takeWhile_append_of_all post.toList.reverse ':' pre.toList.reverse hall
    (by simp), List.reverse_reverse]

/-- C8 (spec-modelled): EPSG extraction takes the token after the last colon
of `srs_name` (the last clause identifies that token) and parses it as an
integer; it fails precisely when the field is absent, contains no colon, or
the trailing token is not an integer, and succeeds with the parsed integer
otherwise. -/
theorem extract_epsg_code_c8 (cpt : GefCpt) (hid : String) :
    (cpt.srs_name = none →
        extract_epsg_code cpt hid = .error (.invalidSpatialReference hid .absent))
    ∧ (∀ s, cpt.srs_name = some s → s.toList.contains ':' = false →
        extract_epsg_code cpt hid = .error (.invalidSpatialReference hid .noColon))
    ∧ (∀ s, cpt.srs_name = some s → s.toList.contains ':' = true →
        parseIntChars (afterLastColon s) = none →
        extract_epsg_code cpt hid = .error (.invalidSpatialReference hid .notAnInteger))
    ∧ (∀ s n, cpt.srs_name = some s → s.toList.contains ':' = true →
        parseIntChars (afterLastColon s) = some n →
        extract_epsg_code cpt hid = .ok n)
    ∧ (∀ pre post, post.toList.contains ':' = false →
        afterLastColon (pre ++ ":" ++ post) = post.toList) := by
  have hred : ∀ s, cpt.srs_name = some s →
      extract_epsg_code cpt hid =
        (if s.toList.contains ':' then
          match parseIntChars (afterLastColon s) with
          | some n => Except.ok n
          | none => Except.error (GefError.invalidSpatialReference hid SrsError.notAnInteger)
        else Except.error (GefError.invalidSpatialReference hid SrsError.noColon)) := by
    intro s hs
    unfold extract_epsg_code
    rw [hs]
  refine ⟨?_, ?_, ?_, ?_, fun pre post h => afterLastColon_append pre post h⟩
  · intro h
    unfold extract_epsg_code
    rw [h]
  · intro s hs hcolon
    rw [hred s hs, hcolon]
    rfl
  · intro s hs hcolon hparse
    rw [hred s hs, hcolon, hparse]
    rfl
  · intro s n hs hcolon hparse
    rw [hred s hs, hcolon, hparse]
    rfl

/-- Witness for C8 at the repository's test strings: `"EPSG:28992"` and
`"urn:ogc:def:crs:EPSG::4326"` succeed with the trailing integer, a string
with no colon and a non-integer trailing token fail, an absent field fails,
and the after-last-colon clause picks `"28992"` out of `"EPSG:28992"`. -/
theorem extract_epsg_code_c8_witness :
    extract_epsg_code cptA "CPT-001" = .ok 28992
    ∧ extract_epsg_code ⟨some "urn:ogc:def:crs:EPSG::4326", none, none, none, 0, ⟨[], []⟩⟩ "T"
        = .ok 4326
    ∧ extract_epsg_code ⟨some "INVALID_FORMAT", none, none, none, 0, ⟨[], []⟩⟩ "T"
        = .error (.invalidSpatialReference "T" .noColon)
    ∧ extract_epsg_code ⟨some "EPSG:ABC", none, none, none, 0, ⟨[], []⟩⟩ "T"
        = .error (.invalidSpatialReference "T" .notAnInteger)
    ∧ extract_epsg_code ⟨none, none, none, none, 0, ⟨[], []⟩⟩ "T"
        = .error (.invalidSpatialReference "T" .absent)
    ∧ afterLastColon ("EPSG" ++ ":" ++ "28992") = "28992".toList :=
  ⟨(extract_epsg_code_c8 cptA "CPT-001").2.2.2.1 "EPSG:28992" 28992 rfl (by decide) (by decide),
   (extract_epsg_code_c8 _ "T").2.2.2.1 "urn:ogc:def:crs:EPSG::4326" 4326 rfl
     (by decide) (by decide),
   (extract_epsg_code_c8 _ "T").2.1 "INVALID_FORMAT" rfl (by decide),
   (extract_epsg_code_c8 _ "T").2.2.1 "EPSG:ABC" rfl (by decide) (by decide),
   (extract_epsg_code_c8 _ "T").1 rfl,
   (extract_epsg_code_c8 cptA "T").2.2.2.2 "EPSG" "28992" (by decide)⟩

/-! ## EPSG consistency across a batch (claim C2) -/

theorem check_epsg_rest_ok_eq :
    ∀ (rest : List (String × GefCpt)) (c0 c : Int),
      check_epsg_rest c0 rest = .ok c → c = c0 := by
  intro rest
  induction rest with
  | nil =>
    intro c0 c h
    unfold check_epsg_rest at h
    exact (Except.ok.injEq _ _).mp h.symm
  | cons p rs ih =>
    intro c0 c h
    obtain ⟨hid, r⟩ := p
    cases hx : extract_epsg_code r hid with
    | error e =>
      have hred : check_epsg_rest c0 ((hid, r) :: rs) = .error e := by
        simp only [check_epsg_rest]
        rw [hx]
      rw [hred] at h
      simp at h
    | ok c' =>
      have hred : check_epsg_rest c0 ((hid, r) :: rs) =
          (if c' = c0 then check_epsg_rest c0 rs
           else Except.error (GefError.inconsistentSpatialReference hid c0 c')) := by
        simp only [check_epsg_rest]
        rw [hx]
      rw [hred] at h
      by_cases hcc : c' = c0
      · rw [if_pos hcc] at h
        exact ih c0 c h
      · rw [if_neg hcc] at h
        simp at h

theorem check_epsg_rest_spec :
    ∀ (rest : List (String × GefCpt)) (cs : List Int) (c0 : Int),
      rest.map (fun p => extract_epsg_code p.2 p.1) = cs.map Except.ok →
      (check_epsg_rest c0 rest = .ok c0 ↔ ∀ c ∈ cs, c = c0)
      ∧ ((∃ c ∈ cs, c ≠ c0) →
          ∃ hid c, c ≠ c0 ∧
            check_epsg_rest c0 rest = .error (.inconsistentSpatialReference hid c0 c)) := by
  intro rest
  induction rest with
  | nil =>
    intro cs c0 h
    have hcs : cs = [] := by
      cases cs with
      | nil => rfl
      | cons c cs' => simp at h
    subst hcs
    refine ⟨⟨fun _ c hc => absurd hc (List.not_mem_nil c), fun _ => rfl⟩, ?_⟩
    rintro ⟨c, hc, -⟩
    exact absurd hc (List.not_mem_nil c)
  | cons p rs ih =>
    intro cs c0 h
    obtain ⟨hid, r⟩ := p
    cases cs with
    | nil => simp at h
    | cons c cs' =>
      simp only [List.map_cons, List.cons.injEq] at h
      obtain ⟨hx, hrest⟩ := h
      have IH := ih cs' c0 hrest
      have hred : check_epsg_rest c0 ((hid, r) :: rs) =
          (if c = c0 then check_epsg_rest c0 rs
           else Except.error (GefError.inconsistentSpatialReference hid c0 c)) := by
        simp only [check_epsg_rest]
        rw [hx]
      rw [hred]
      by_cases hcc : c = c0
      · rw [if_pos hcc]
        subst hcc
        constructor
        · constructor
          · intro hok c' hc'
            rcases List.mem_cons.mp hc' with rfl | h'
            · rfl
            · exact (IH.1.mp hok) c' h'
          · intro hall
            exact IH.1.mpr (fun c' hc' => hall c' (List.mem_cons_of_mem _ hc'))
        · rintro ⟨c', hc', hne⟩
          rcases List.mem_cons.mp hc' with rfl | h'
          · exact absurd rfl hne
          · exact IH.2 ⟨c', h', hne⟩
      · rw [if_neg hcc]
        constructor
        · constructor
          · intro habs
            simp at habs
          · intro hall
            exact absurd (hall c (List.mem_cons_self c cs')) hcc
        · intro _
          exact ⟨hid, c, hcc, rfl⟩

/-- C2 (spec-modelled): over a batch of two or more records whose EPSG codes
all extract successfully, the conversion succeeds exactly when every
subsequent record's code equals the first record's code, in which case the
collection's code is the first record's code; any differing code produces an
`InconsistentSpatialReference` error naming the offending hole and both
codes; and the only successful value is the first record's code.  An empty
batch fails with `EmptyBatch`. -/
theorem collection_epsg_c2
    (hid0 : String) (r0 : GefCpt) (rest : List (String × GefCpt)) (c0 : Int) (cs : List Int)
    (h0 : extract_epsg_code r0 hid0 = .ok c0)
    (hrest : rest.map (fun p => extract_epsg_code p.2 p.1) = cs.map Except.ok)
    (hne : rest ≠ []) :
    (collection_epsg ((hid0, r0) :: rest) = .ok c0 ↔ ∀ c ∈ cs, c = c0)
    ∧ ((∃ c ∈ cs, c ≠ c0) →
        ∃ hid c, c ≠ c0 ∧
          collection_epsg ((hid0, r0) :: rest) =
            .error (.inconsistentSpatialReference hid c0 c))
    ∧ (∀ c, collection_epsg ((hid0, r0) :: rest) = .ok c → c = c0)
    ∧ collection_epsg ([] : List (String × GefCpt)) = .error .emptyBatch := by
  have hunf : collection_epsg ((hid0, r0) :: rest) = check_epsg_rest c0 rest := by
    simp only [collection_epsg]
    rw [h0]
  have hmain := check_epsg_rest_spec rest cs c0 hrest
  rw [hunf]
  exact ⟨hmain.1, hmain.2, fun c hc => check_epsg_rest_ok_eq rest c0 c hc, rfl⟩

/-- Witness for C2: the batch `cptA, cptB` (both EPSG 28992) succeeds with
code 28992 (the first record's code), and the batch `cptA, cptC` (28992 vs
4326) fails with an inconsistent-spatial-reference error. -/
theorem collection_epsg_c2_witness :
    collection_epsg [("CPT-001", cptA), ("CPT-002", cptB)] = .ok 28992
    ∧ (∃ hid c, c ≠ 28992 ∧
        collection_epsg [("CPT-001", cptA), ("CPT-002", cptC)] =
          .error (.inconsistentSpatialReference hid 28992 c)) := by
  have h1 := collection_epsg_c2 "CPT-001" cptA [("CPT-002", cptB)] 28992 [28992]
    (by decide) (by decide) (by decide)
  have h2 := collection_epsg_c2 "CPT-001" cptA [("CPT-002", cptC)] 28992 [4326]
    (by decide) (by decide) (by decide)
  exact ⟨h1.1.mpr (by decide), h2.2.1 ⟨4326, List.mem_cons_self _ _, by decide⟩⟩

end EvoDataConverters
